import Mathlib

/-!
Shallow embedding of `src/app/static/js/main.js` (browser-side PDF upload
widget).  File blobs are records of name, MIME type and size; the DOM state
touched by the script (selection list, panel visibility, submit button,
results markup) is an explicit state record; `alert` calls are returned as
explicit warning values.
-/

/-- A raw file blob as the script sees it: `name`, `type` (MIME) and `size`
in bytes. -/
structure FileB where
  name : String
  type : String
  size : Nat
deriving DecidableEq, Repr

/-- The `alert` messages `addFiles` can raise: the choose-a-PDF warning and
the oversized-file warning naming the first oversized file. -/
inductive AddWarning where
  | notPdf : AddWarning
  | tooLarge : String → AddWarning
deriving DecidableEq, Repr

/-- `s.endsWith suff`, computed on the underlying character lists. -/
def strEndsWith (s suff : String) : Bool :=
  s.data.drop (s.data.length - suff.data.length) == suff.data

/-- Line 96: `file.type === "application/pdf" || file.name.endsWith(".pdf")`. -/
def isPdfFile (f : FileB) : Bool :=
  f.type == "application/pdf" || strEndsWith f.name ".pdf"

/-- Lines 111-116, body of the `forEach`: push `file` unless an entry with
the same name is already in the accumulated list. -/
def addStep (acc : List FileB) (file : FileB) : List FileB :=
  if (acc.find? (fun f => f.name == file.name)).isSome then acc else acc ++ [file]

/-- Lines 111-116: `pdfFiles.forEach(...)` over the selected list. -/
def addAll (l : List FileB) (pdfFiles : List FileB) : List FileB :=
  pdfFiles.foldl addStep l

/-- Lines 94-120, `addFiles(files)`: filter to PDFs, warn and stop if none;
warn naming the first oversized file and stop if any PDF exceeds 16 MiB;
otherwise append the PDFs that are not name-duplicates.  Returns the new
selection list and the warning raised, if any. -/
def addFiles (l : List FileB) (files : List FileB) : List FileB × Option AddWarning :=
  let pdfFiles := files.filter isPdfFile
  if pdfFiles.length = 0 then
    (l, some AddWarning.notPdf)
  else
    let oversizedFiles := pdfFiles.filter (fun f => 16 * 1024 * 1024 < f.size)
    match oversizedFiles with
    | [] => (addAll l pdfFiles, none)
    | f :: _ => (l, some (AddWarning.tooLarge f.name))

/-- Lines 122-126, `removeFile(index)`: `selectedFiles.splice(index, 1)`.
JavaScript `splice` clamps a negative start to `max(length + start, 0)` and a
start beyond the length to the length, then deletes at most one element. -/
def removeFile (l : List FileB) (index : Int) : List FileB :=
  let len : Nat := l.length
  let start : Nat := if index < 0 then (len + index).toNat else min index.toNat len
  l.take start ++ l.drop (start + 1)

/-- Round `bytes / p` to two decimals, half away from zero, returning the
number of hundredths: `Math.round(bytes / p * 100)` at line 159, computed
exactly. -/
def roundHundredths (bytes p : Nat) : Nat :=
  (bytes * 100 * 2 + p) / (2 * p)

/-- Render a number of hundredths the way JavaScript prints
`Math.round(x * 100) / 100`: no decimal point for a whole number, trailing
zeros dropped. -/
def hundredthsToString (r : Nat) : String :=
  let ip := r / 100
  let fr := r % 100
  if fr = 0 then toString ip
  else if fr % 10 = 0 then toString ip ++ "." ++ toString (fr / 10)
  else if fr < 10 then toString ip ++ ".0" ++ toString fr
  else toString ip ++ "." ++ toString fr

/-- Line 158: `Math.floor(Math.log(bytes) / Math.log(1024))`, the floor of
the base-1024 logarithm. -/
def unitIndex (bytes : Nat) : Nat := Nat.log 1024 bytes

/-- Line 157: the unit table; indexing past its end yields JavaScript
`undefined`, which string concatenation prints as "undefined". -/
def unitName (i : Nat) : String :=
  (["Bytes", "KB", "MB", "GB"]).getD i "undefined"

/-- Lines 154-160, `formatFileSize(bytes)`. -/
def formatFileSize (bytes : Nat) : String :=
  if bytes = 0 then "0 Bytes"
  else
    hundredthsToString (roundHundredths bytes (1024 ^ unitIndex bytes))
      ++ " " ++ unitName (unitIndex bytes)

/-- One per-file record in the batch response (section of lines 246-278). -/
structure ResultItem where
  filename : String
  success : Bool
  total_test_cases : Nat
  coverage_percentage : Nat
  worksheet_name : String
  sheet_url : String
  error : String
deriving DecidableEq, Repr

/-- The JSON body of `/api/generate-testcases` as `displayResults` reads it. -/
structure BatchResponse where
  success : Bool
  total_files : Nat
  successful_files : Nat
  results : List ResultItem
deriving DecidableEq, Repr

/-- Line 262: `result.worksheet_name.substring(0, 20)` — the first `n`
characters of the string. -/
def truncName (s : String) (n : Nat) : String := String.mk (s.data.take n)

/-- One rendered block of the results markup (lines 240-278): the summary
line, a success card, or an error card. -/
inductive Rendered where
  | summary : Nat → Nat → Rendered
  | successItem : String → Nat → Nat → String → String → Rendered
  | errorItem : String → String → Rendered
deriving DecidableEq, Repr

/-- Lines 238-278: the html built by `displayResults`, as structured blocks.
A success card shows the filename, test-case count, coverage, the worksheet
name truncated to 20 characters with "..." appended, and the sheet link; an
error card shows the filename and the error message. -/
def renderResults (data : BatchResponse) : List Rendered :=
  (if data.success then [Rendered.summary data.successful_files data.total_files] else [])
    ++ data.results.map (fun r =>
        if r.success then
          Rendered.successItem r.filename r.total_test_cases r.coverage_percentage
            (truncName r.worksheet_name 20 ++ "...") r.sheet_url
        else
          Rendered.errorItem r.filename r.error)

/-- The DOM state the script mutates: the selection list, visibility of the
progress and results panels, the disabled flag of the submit button, and the
rendered results markup. -/
structure AppState where
  selectedFiles : List FileB
  progressVisible : Bool
  resultsVisible : Bool
  generateDisabled : Bool
  resultsContent : List Rendered
deriving DecidableEq, Repr

/-- Lines 150-152, `updateGenerateButton`: disabled iff the list is empty. -/
def updateGenerateButton (s : AppState) : AppState :=
  { s with generateDisabled := s.selectedFiles.length == 0 }

/-- Lines 233-288, `displayResults(data)`: hide progress, show results,
re-enable the button, write the rendered blocks, and — only when the
batch-level `success` flag is set — clear the selection list and recompute
the button state. -/
def displayResults (s : AppState) (data : BatchResponse) : AppState :=
  let s1 := { s with progressVisible := false, resultsVisible := true,
                     generateDisabled := false, resultsContent := renderResults data }
  if data.success then
    updateGenerateButton { s1 with selectedFiles := [] }
  else
    s1

/-- Lines 183-226, `generateTestCases()`: no-op when the list is empty; else
hide results, show progress, disable the button, issue the request.  The
request-and-parse step is the `outcome` argument: `Except.ok data` is a
parsed JSON body (handed to `displayResults` after the cosmetic delay),
`Except.error msg` is a thrown error, whose catch block hides the progress
panel, raises the alert with the message, and re-enables the button.
Returns the final state and the alert raised, if any. -/
def generateTestCases (s : AppState) (outcome : Except String BatchResponse) :
    AppState × Option String :=
  if s.selectedFiles.length = 0 then (s, none)
  else
    let s1 := { s with resultsVisible := false, progressVisible := true,
                       generateDisabled := true }
    match outcome with
    | Except.ok data => (displayResults s1 data, none)
    | Except.error msg =>
        ({ s1 with progressVisible := false, generateDisabled := false },
         some ("❌ Lỗi: " ++ msg))

/-! ### Sample values used by the witness theorems -/

/-- A small valid PDF file. -/
def fA : FileB := ⟨"a.pdf", "application/pdf", 5⟩

/-- A non-PDF file. -/
def fTxt : FileB := ⟨"notes.txt", "text/plain", 3⟩

/-- A PDF file one byte over the 16 MiB limit. -/
def fBig : FileB := ⟨"big.pdf", "application/pdf", 16 * 1024 * 1024 + 1⟩

/-- A PDF file of exactly 16 MiB. -/
def fMax : FileB := ⟨"max.pdf", "application/pdf", 16 * 1024 * 1024⟩

/-- A failed result item as in the spec scenario. -/
def rFail : ResultItem := ⟨"b.pdf", false, 0, 0, "", "", "parse failed"⟩

/-- A successful result item with a short worksheet name. -/
def rOk : ResultItem := ⟨"a.pdf", true, 12, 85, "Sheet1", "https://x", ""⟩

/-- A batch response with `success` false and one failed item. -/
def dataFail : BatchResponse := ⟨false, 1, 0, [rFail]⟩

/-- A batch response with `success` true and one successful item. -/
def dataOk : BatchResponse := ⟨true, 1, 1, [rOk]⟩

/-- A state holding one selected file. -/
def sEx : AppState := ⟨[fA], false, false, false, []⟩

/-! ### Helper lemmas about the `forEach` fold of `addFiles` -/

/-- The fold only ever appends: the original list is an initial segment of
the result, and everything appended comes from the batch. -/
theorem addAll_eq_append (pdfs : List FileB) (l : List FileB) :
    ∃ t, addAll l pdfs = l ++ t ∧ ∀ f ∈ t, f ∈ pdfs := by
  induction pdfs generalizing l with
  | nil => exact ⟨[], by simp [addAll]⟩
  | cons p ps ih =>
    have hstep : addAll l (p :: ps) = addAll (addStep l p) ps := rfl
    by_cases hfind : (l.find? (fun f => f.name == p.name)).isSome
    · obtain ⟨t, ht, hm⟩ := ih l
      refine ⟨t, ?_, fun f hmem => List.mem_cons_of_mem _ (hm f hmem)⟩
      rw [hstep, addStep, if_pos hfind, ht]
    · obtain ⟨t, ht, hm⟩ := ih (l ++ [p])
      refine ⟨p :: t, ?_, ?_⟩
      · rw [hstep, addStep, if_neg hfind, ht, List.append_assoc]
        rfl
      · intro f hmem
        rw [List.mem_cons] at hmem
        rcases hmem with rfl | hmem
        · exact List.mem_cons_self f ps
        · exact List.mem_cons_of_mem _ (hm f hmem)

/-- Entries already selected survive the fold. -/
theorem mem_addAll_of_mem (pdfs : List FileB) (l : List FileB) (g : FileB)
    (hg : g ∈ l) : g ∈ addAll l pdfs := by
  obtain ⟨t, ht, -⟩ := addAll_eq_append pdfs l
  rw [ht]
  exact List.mem_append_left t hg

/-- Every member of the fold result was selected before or is from the batch. -/
theorem mem_of_mem_addAll (pdfs : List FileB) (l : List FileB) (f : FileB)
    (hf : f ∈ addAll l pdfs) : f ∈ l ∨ f ∈ pdfs := by
  obtain ⟨t, ht, hm⟩ := addAll_eq_append pdfs l
  rw [ht] at hf
  rcases List.mem_append.mp hf with h | h
  · exact Or.inl h
  · exact Or.inr (hm f h)

/-- After the fold, every batch file has a name-matching entry in the list. -/
theorem exists_name_mem_addAll (pdfs : List FileB) (l : List FileB) (f : FileB)
    (hf : f ∈ pdfs) : ∃ g ∈ addAll l pdfs, g.name = f.name := by
  induction pdfs generalizing l with
  | nil => cases hf
  | cons p ps ih =>
    have hstep : addAll l (p :: ps) = addAll (addStep l p) ps := rfl
    rw [List.mem_cons] at hf
    rcases hf with rfl | hf
    · have hmem : ∃ g ∈ addStep l f, g.name = f.name := by
        by_cases hfind : (l.find? (fun x => x.name == f.name)).isSome
        · obtain ⟨x, hx, hxname⟩ := List.find?_isSome.mp hfind
          exact ⟨x, by rw [addStep, if_pos hfind]; exact hx, by simpa using hxname⟩
        · exact ⟨f, by
            rw [addStep, if_neg hfind]
            exact List.mem_append_right l (List.mem_singleton.mpr rfl), rfl⟩
      obtain ⟨g, hg, hgname⟩ := hmem
      exact ⟨g, hstep ▸ mem_addAll_of_mem ps (addStep l f) g hg, hgname⟩
    · obtain ⟨g, hg, hgname⟩ := ih (addStep l p) hf
      exact ⟨g, hstep ▸ hg, hgname⟩

/-- One fold step keeps names pairwise distinct. -/
theorem addStep_pairwise (l : List FileB) (p : FileB)
    (h : l.Pairwise (fun a b => a.name ≠ b.name)) :
    (addStep l p).Pairwise (fun a b => a.name ≠ b.name) := by
  by_cases hf : (l.find? (fun f => f.name == p.name)).isSome
  · rw [addStep, if_pos hf]; exact h
  · rw [addStep, if_neg hf]
    have hnone : l.find? (fun f => f.name == p.name) = none := by
      cases hopt : l.find? (fun f => f.name == p.name) with
      | none => rfl
      | some x => rw [hopt] at hf; simp at hf
    have hall := List.find?_eq_none.mp hnone
    refine List.pairwise_append.mpr ⟨h, List.pairwise_singleton _ _, ?_⟩
    intro a ha b hb
    rw [List.mem_singleton.mp hb]
    have := hall a ha
    simpa using this

/-- The fold keeps names pairwise distinct. -/
theorem addAll_pairwise (pdfs : List FileB) (l : List FileB)
    (h : l.Pairwise (fun a b => a.name ≠ b.name)) :
    (addAll l pdfs).Pairwise (fun a b => a.name ≠ b.name) := by
  induction pdfs generalizing l with
  | nil => exact h
  | cons p ps ih => exact ih (addStep l p) (addStep_pairwise l p h)

/-- A fold step with an already-present name is a no-op. -/
theorem addStep_of_name_mem (l : List FileB) (f : FileB)
    (h : ∃ g ∈ l, g.name = f.name) : addStep l f = l := by
  obtain ⟨g, hg, hname⟩ := h
  have : (l.find? (fun x => x.name == f.name)).isSome :=
    List.find?_isSome.mpr ⟨g, hg, by simpa using hname⟩
  rw [addStep, if_pos this]

/-- `addFiles` never breaks the distinct-names invariant. -/
theorem addFiles_pairwise (l : List FileB) (files : List FileB)
    (h : l.Pairwise (fun a b => a.name ≠ b.name)) :
    ((addFiles l files).1).Pairwise (fun a b => a.name ≠ b.name) := by
  rw [addFiles]
  by_cases h0 : (files.filter isPdfFile).length = 0
  · rw [if_pos h0]; exact h
  · rw [if_neg h0]
    cases hov : (files.filter isPdfFile).filter (fun f => 16 * 1024 * 1024 < f.size) with
    | nil => simpa [hov] using addAll_pairwise (files.filter isPdfFile) l h
    | cons g t => simpa [hov] using h

/-- The selection reached by a sequence of `addFiles` calls starting empty. -/
def runAddBatches (batches : List (List FileB)) : List FileB :=
  batches.foldl (fun l fs => (addFiles l fs).1) []

/-- C1: over any sequence of `addFiles` calls with any input file sets, the
Selection List never contains two entries with equal name; and calling
`addFiles` with a file whose name is already present leaves the list length
unchanged. -/
theorem addFiles_c1 :
    (∀ batches : List (List FileB),
      (runAddBatches batches).Pairwise (fun a b => a.name ≠ b.name))
  ∧ (∀ (l : List FileB) (f : FileB), (∃ g ∈ l, g.name = f.name) →
      ((addFiles l [f]).1).length = l.length) := by
  constructor
  · intro batches
    have key : ∀ (bs : List (List FileB)) (l : List FileB),
        l.Pairwise (fun a b => a.name ≠ b.name) →
        (bs.foldl (fun l fs => (addFiles l fs).1) l).Pairwise
          (fun a b => a.name ≠ b.name) := by
      intro bs
      induction bs with
      | nil => intro l h; exact h
      | cons b bs ih => intro l h; exact ih _ (addFiles_pairwise l b h)
    exact key batches [] List.Pairwise.nil
  · intro l f hdup
    rw [addFiles]
    by_cases h0 : (([f] : List FileB).filter isPdfFile).length = 0
    · rw [if_pos h0]
    · rw [if_neg h0]
      have hpdf : isPdfFile f = true := by
        cases hp : isPdfFile f with
        | true => rfl
        | false => simp [List.filter, hp] at h0
      have hfil : ([f] : List FileB).filter isPdfFile = [f] := by
        simp [List.filter, hpdf]
      rw [hfil]
      cases hov : ([f] : List FileB).filter (fun f => 16 * 1024 * 1024 < f.size) with
      | nil =>
        have : addAll l [f] = l := by
          rw [addAll, List.foldl_cons, List.foldl_nil, addStep_of_name_mem l f hdup]
        simp [hov, this]
      | cons g t => simp [hov]

/-- Witness for C1 at a concrete duplicate re-add. -/
theorem addFiles_c1_witness :
    ((addFiles [fA] [fA]).1).length = ([fA] : List FileB).length :=
  addFiles_c1.2 [fA] fA ⟨fA, by decide, rfl⟩

/-- C4: if the PDF-filtered candidate set has a file over 16 MiB, the whole
call aborts: the list is unchanged and the warning names an oversized file
from the batch. -/
theorem addFiles_c4 (l files : List FileB)
    (h : ∃ f ∈ files.filter isPdfFile, 16 * 1024 * 1024 < f.size) :
    (addFiles l files).1 = l ∧
    ∃ g ∈ files.filter isPdfFile, 16 * 1024 * 1024 < g.size ∧
      (addFiles l files).2 = some (AddWarning.tooLarge g.name) := by
  obtain ⟨f, hfmem, hfsize⟩ := h
  have h0 : ¬(files.filter isPdfFile).length = 0 := by
    intro h0
    rw [List.length_eq_zero] at h0
    rw [h0] at hfmem
    cases hfmem
  have hovmem : f ∈ (files.filter isPdfFile).filter (fun f => 16 * 1024 * 1024 < f.size) :=
    List.mem_filter.mpr ⟨hfmem, by simpa using hfsize⟩
  rw [addFiles, if_neg h0]
  cases hov : (files.filter isPdfFile).filter (fun f => 16 * 1024 * 1024 < f.size) with
  | nil => rw [hov] at hovmem; cases hovmem
  | cons g t =>
    have hgmem : g ∈ (files.filter isPdfFile).filter (fun f => 16 * 1024 * 1024 < f.size) := by
      rw [hov]; exact List.mem_cons_self g t
    have hg := List.mem_filter.mp hgmem
    exact ⟨by simp [hov], g, hg.1, by simpa using hg.2, by simp [hov]⟩

/-- Witness for C4: a valid PDF plus an oversized PDF aborts the call. -/
theorem addFiles_c4_witness : (addFiles [] [fA, fBig]).1 = [] :=
  (addFiles_c4 [] [fA, fBig] ⟨fBig, by decide, by decide⟩).1

/-- C5: `addFiles` considers exactly the candidates whose MIME type is
"application/pdf" or whose name ends in ".pdf"; the choose-a-PDF warning is
raised iff that filtered set is empty, in which case nothing changes; in a
batch whose PDFs are all within the size limit, no warning is raised,
non-PDF candidates are never added, and every PDF candidate ends up
represented by name in the list. -/
theorem addFiles_c5 (l files : List FileB) :
    ((addFiles l files).2 = some AddWarning.notPdf ↔ files.filter isPdfFile = [])
  ∧ (files.filter isPdfFile = [] → (addFiles l files).1 = l)
  ∧ (files.filter isPdfFile ≠ [] →
      (∀ f ∈ files.filter isPdfFile, f.size ≤ 16 * 1024 * 1024) →
        (addFiles l files).2 = none
      ∧ (∀ f ∈ files, isPdfFile f = false → f ∈ (addFiles l files).1 → f ∈ l)
      ∧ (∀ f ∈ files.filter isPdfFile, ∃ g ∈ (addFiles l files).1, g.name = f.name)) := by
  by_cases h0 : (files.filter isPdfFile).length = 0
  · have hnil : files.filter isPdfFile = [] := List.length_eq_zero.mp h0
    rw [addFiles, if_pos h0]
    exact ⟨by simp [hnil], fun _ => rfl, fun hne _ => absurd hnil hne⟩
  · have hne : files.filter isPdfFile ≠ [] := fun h => h0 (by rw [h]; rfl)
    rw [addFiles, if_neg h0]
    cases hov : (files.filter isPdfFile).filter (fun f => 16 * 1024 * 1024 < f.size) with
    | cons g t =>
      have hgmem : g ∈ (files.filter isPdfFile).filter
          (fun f => 16 * 1024 * 1024 < f.size) := by
        rw [hov]; exact List.mem_cons_self g t
      have hg := List.mem_filter.mp hgmem
      have hgf := List.mem_filter.mp hg.1
      refine ⟨?_, fun h => absurd h hne, fun _ hsz => ?_⟩
      · simp
        exact ⟨g, hgf.1, hgf.2⟩
      · exact absurd (hsz g hg.1) (by simpa using hg.2)
    | nil =>
      refine ⟨?_, fun h => absurd h hne, fun _ _ => ⟨by simp, ?_, ?_⟩⟩
      · obtain ⟨x, hx⟩ := List.exists_mem_of_ne_nil _ hne
        have hxf := List.mem_filter.mp hx
        simp
        exact ⟨x, hxf.1, hxf.2⟩
      · intro f _ hnotpdf hf
        simp only at hf
        rcases mem_of_mem_addAll (files.filter isPdfFile) l f hf with h | h
        · exact h
        · have := (List.mem_filter.mp h).2
          rw [hnotpdf] at this
          cases this
      · intro f hf
        simpa using exists_name_mem_addAll (files.filter isPdfFile) l f hf

/-- Witness for C5 at a mixed batch of one text file and one valid PDF. -/
theorem addFiles_c5_witness : (addFiles [] [fTxt, fA]).2 = none :=
  ((addFiles_c5 [] [fTxt, fA]).2.2 (by decide) (by decide)).1

/-- C6: the size boundary is exact — a PDF of 16 × 1024 × 1024 + 1 bytes is
rejected with the oversized warning and nothing is added, while a PDF of
exactly 16 × 1024 × 1024 bytes is accepted into an empty list. -/
theorem addFiles_c6 (f : FileB) (hp : isPdfFile f = true) :
    (f.size = 16 * 1024 * 1024 + 1 →
      addFiles [] [f] = ([], some (AddWarning.tooLarge f.name)))
  ∧ (f.size = 16 * 1024 * 1024 → addFiles [] [f] = ([f], none)) := by
  have hfil : ([f] : List FileB).filter isPdfFile = [f] := by
    simp [List.filter, hp]
  constructor
  · intro hsz
    have hov : ([f] : List FileB).filter (fun f => 16 * 1024 * 1024 < f.size) = [f] := by
      simp [List.filter, hsz]
    rw [addFiles, if_neg (by rw [hfil]; simp), hfil, hov]
  · intro hsz
    have hov : ([f] : List FileB).filter (fun f => 16 * 1024 * 1024 < f.size) = [] := by
      simp [List.filter, hsz]
    rw [addFiles, if_neg (by rw [hfil]; simp), hfil, hov]
    rw [show addAll ([] : List FileB) [f] = [f] from by
      rw [addAll, List.foldl_cons, List.foldl_nil, addStep]
      simp [List.find?]]

/-- Witness for C6 at the two boundary sizes. -/
theorem addFiles_c6_witness :
    addFiles [] [fBig] = ([], some (AddWarning.tooLarge fBig.name))
  ∧ addFiles [] [fMax] = ([fMax], none) :=
  ⟨(addFiles_c6 fBig (by decide)).1 rfl, (addFiles_c6 fMax (by decide)).2 rfl⟩

/-- C7 counterexample: `removeFile` with the negative index -1 on a
one-element list removes the element, so an out-of-range negative index does
not leave the list unaltered. -/
theorem removeFile_c7_counterexample :
    removeFile [fA] (-1) = [] ∧ removeFile [fA] (-1) ≠ [fA] := by decide

/-- C7 amended: for every index at or beyond the current length,
`removeFile` does not throw and leaves the list unaltered; a negative index
is interpreted relative to the end of the list (clamped at the front), so on
a nonempty list it removes exactly one element. -/
theorem removeFile_c7_amended (l : List FileB) (i : Int) :
    ((l.length : Int) ≤ i → removeFile l i = l)
  ∧ (i < 0 → l ≠ [] → (removeFile l i).length = l.length - 1) := by
  constructor
  · intro hle
    have hnonneg : ¬i < 0 := by
      intro hlt
      have : (0 : Int) ≤ (l.length : Int) := Int.natCast_nonneg _
      omega
    have htoNat : l.length ≤ i.toNat := by omega
    rw [removeFile]
    simp only [if_neg hnonneg]
    rw [Nat.min_eq_right htoNat, List.take_of_length_le (le_refl _),
      List.drop_eq_nil_of_le (by omega), List.append_nil]
  · intro hneg hne
    have hlen : 1 ≤ l.length := List.length_pos.mpr hne
    rw [removeFile]
    simp only [if_pos hneg]
    have hstart : ((l.length : Int) + i).toNat < l.length := by omega
    rw [List.length_append, List.length_take, List.length_drop]
    omega

/-- Witness for C7 amended at a beyond-length index and at -1. -/
theorem removeFile_c7_witness :
    (removeFile [fA] 5 = [fA])
  ∧ ((removeFile [fA] (-1)).length = ([fA] : List FileB).length - 1) :=
  ⟨(removeFile_c7_amended [fA] 5).1 (by decide),
   (removeFile_c7_amended [fA] (-1)).2 (by decide) (by decide)⟩

/-- C2: `displayResults` empties the Selection List iff the batch-level
`success` flag is true (re-disabling the submit button in that case); with
`success` false the list is untouched and every failed result item has its
error message rendered. -/
theorem displayResults_c2 (s : AppState) (data : BatchResponse)
    (h : s.selectedFiles ≠ []) :
    ((displayResults s data).selectedFiles = [] ↔ data.success = true)
  ∧ (data.success = true → (displayResults s data).generateDisabled = true)
  ∧ (data.success = false →
      (displayResults s data).selectedFiles = s.selectedFiles
    ∧ (displayResults s data).generateDisabled = false
    ∧ ∀ r ∈ data.results, r.success = false →
        Rendered.errorItem r.filename r.error ∈ (displayResults s data).resultsContent) := by
  cases hs : data.success with
  | true =>
    refine ⟨?_, fun _ => ?_, fun hfalse => by simp at hfalse⟩
    · simp [displayResults, hs, updateGenerateButton]
    · simp [displayResults, hs, updateGenerateButton]
  | false =>
    refine ⟨?_, fun htrue => by simp at htrue, fun _ => ⟨?_, ?_, ?_⟩⟩
    · simp [displayResults, hs, h]
    · simp [displayResults, hs]
    · simp [displayResults, hs]
    · intro r hr hrfail
      have hcontent : (displayResults s data).resultsContent = renderResults data := by
        simp [displayResults, hs]
      rw [hcontent, renderResults, if_neg (by simp [hs]), List.nil_append]
      exact List.mem_map.mpr ⟨r, hr, by rw [hrfail]; rfl⟩

/-- Witness for C2 at a failing batch response. -/
theorem displayResults_c2_witness :
    (displayResults sEx dataFail).selectedFiles = sEx.selectedFiles :=
  ((displayResults_c2 sEx dataFail (by decide)).2.2 rfl).1

/-- C3: when the request throws, `generateTestCases` hides the progress
panel, raises the alert carrying the error message, re-enables the submit
button, and leaves the Selection List unchanged. -/
theorem generateTestCases_c3 (s : AppState) (msg : String)
    (h : s.selectedFiles ≠ []) :
    (generateTestCases s (Except.error msg)).1.progressVisible = false
  ∧ (generateTestCases s (Except.error msg)).2 = some ("❌ Lỗi: " ++ msg)
  ∧ (generateTestCases s (Except.error msg)).1.generateDisabled = false
  ∧ (generateTestCases s (Except.error msg)).1.selectedFiles = s.selectedFiles := by
  simp [generateTestCases, h]

/-- Witness for C3 at a concrete thrown message. -/
theorem generateTestCases_c3_witness :
    (generateTestCases sEx (Except.error "boom")).2 = some ("❌ Lỗi: " ++ "boom") :=
  (generateTestCases_c3 sEx "boom" (by decide)).2.1

/-- String concatenation is associative (on the underlying char lists). -/
theorem strAppend_assoc (a b c : String) : a ++ b ++ c = a ++ (b ++ c) := by
  cases a with
  | mk da =>
    cases b with
    | mk db =>
      cases c with
      | mk dc =>
        show String.mk (da ++ db ++ dc) = String.mk (da ++ (db ++ dc))
        rw [List.append_assoc]

/-- C8: `formatFileSize` returns "0 Bytes" for 0, "1 KB" for 1024 and
"1.46 KB" for 1500. -/
theorem formatFileSize_c8 :
    formatFileSize 0 = "0 Bytes"
  ∧ formatFileSize 1024 = "1 KB"
  ∧ formatFileSize 1500 = "1.46 KB" := by
  have h1 : unitIndex 1024 = 1 :=
    Nat.log_eq_of_pow_le_of_lt_pow (by norm_num) (by norm_num)
  have h2 : unitIndex 1500 = 1 :=
    Nat.log_eq_of_pow_le_of_lt_pow (by norm_num) (by norm_num)
  refine ⟨rfl, ?_, ?_⟩
  · simp only [formatFileSize, h1]
    decide
  · simp only [formatFileSize, h2]
    decide

/-- C9: for every byte count of at least 1024^4 the unit index is 4 or
more, past the end of the unit table, and the rendered unit is the
out-of-bounds placeholder "undefined". -/
theorem formatFileSize_c9 (n : Nat) (h : 1024 ^ 4 ≤ n) :
    4 ≤ unitIndex n
  ∧ formatFileSize n =
      hundredthsToString (roundHundredths n (1024 ^ unitIndex n)) ++ " undefined" := by
  have hlog : 4 ≤ unitIndex n := by
    have h4 : Nat.log 1024 (1024 ^ 4) = 4 := Nat.log_pow (by norm_num) 4
    calc 4 = Nat.log 1024 (1024 ^ 4) := h4.symm
    _ ≤ Nat.log 1024 n := Nat.log_mono_right h
  have hn0 : ¬n = 0 := by
    have : 0 < n := lt_of_lt_of_le (by norm_num) h
    omega
  have hunit : unitName (unitIndex n) = "undefined" := by
    simp only [unitName]
    exact List.getD_eq_default _ _ (by simpa using hlog)
  refine ⟨hlog, ?_⟩
  simp only [formatFileSize, if_neg hn0, hunit]
  rw [strAppend_assoc]
  rfl

/-- Witness for C9 at exactly 1024^4 bytes. -/
theorem formatFileSize_c9_witness :
    4 ≤ unitIndex (1024 ^ 4)
  ∧ formatFileSize (1024 ^ 4) =
      hundredthsToString (roundHundredths (1024 ^ 4) (1024 ^ unitIndex (1024 ^ 4)))
        ++ " undefined" :=
  formatFileSize_c9 (1024 ^ 4) (le_refl _)

/-- C10: every success result item is rendered with the first 20 characters
of `worksheet_name` followed by "..." unconditionally; when the name has at
most 20 characters the full name is shown, still with "..." appended. -/
theorem renderResults_c10 (data : BatchResponse) (r : ResultItem)
    (hr : r ∈ data.results) (hs : r.success = true) :
    Rendered.successItem r.filename r.total_test_cases r.coverage_percentage
      (truncName r.worksheet_name 20 ++ "...") r.sheet_url ∈ renderResults data
  ∧ (r.worksheet_name.length ≤ 20 →
      truncName r.worksheet_name 20 ++ "..." = r.worksheet_name ++ "...") := by
  constructor
  · rw [renderResults]
    refine List.mem_append_right _ (List.mem_map.mpr ⟨r, hr, ?_⟩)
    rw [hs, if_pos rfl]
  · intro hlen
    have hdata : r.worksheet_name.data.length ≤ 20 := hlen
    have htake : r.worksheet_name.data.take 20 = r.worksheet_name.data :=
      List.take_of_length_le hdata
    show String.mk (r.worksheet_name.data.take 20) ++ "..." = r.worksheet_name ++ "..."
    rw [htake]

/-- Witness for C10 at a successful item with a short worksheet name. -/
theorem renderResults_c10_witness :
    Rendered.successItem rOk.filename rOk.total_test_cases rOk.coverage_percentage
      (truncName rOk.worksheet_name 20 ++ "...") rOk.sheet_url ∈ renderResults dataOk :=
  (renderResults_c10 dataOk rOk (by decide) (by decide)).1
